import Mathlib

/-!
Shallow embedding of the audio-reactive visualizer implemented in
src/scripts/living-background.js (the Living Background Pro engine), and
proofs about it.

Modelling conventions.  The JavaScript double arithmetic of the source is
embedded as exact arithmetic in a linear ordered field K (instantiated at
ℚ wherever a concrete evaluation is needed), except for Math.pow with a
fractional exponent, which is embedded as Real.rpow on ℝ.  Randomness
(Math.random draws, and the cosine/sine of the random particle angle) is
modelled by values supplied by the environment.  Timestamps
(performance.now and the requestAnimationFrame timestamp) are inputs.
DOM reads and canvas drawing do not feed back into engine state and are
not modelled, except where noted inline.
-/

namespace LivingBg

/-- The six frequency bands of CONFIG.FREQ_BANDS, with their camelCase
keys as used for bandLevels and smoothedLevels. -/
inductive BandKey
  | subBass
  | bass
  | lowMids
  | mids
  | highMids
  | treble
deriving DecidableEq

/-- CONFIG.MAX_PARTICLES. -/
def MAX_PARTICLES : Nat := 100

/-- Band lower edges in Hz (CONFIG.FREQ_BANDS, min fields). -/
def bandMinHz : BandKey → ℚ
  | .subBass => 20
  | .bass => 60
  | .lowMids => 250
  | .mids => 500
  | .highMids => 2000
  | .treble => 4000

/-- Band upper edges in Hz (CONFIG.FREQ_BANDS, max fields). -/
def bandMaxHz : BandKey → ℚ
  | .subBass => 60
  | .bass => 250
  | .lowMids => 500
  | .mids => 2000
  | .highMids => 4000
  | .treble => 20000

/-- One getByteFrequencyData snapshot together with the audio context
sample rate.  binCount (analyser.frequencyBinCount) equals data.length,
since frequencyData is allocated as a Uint8Array of that length. -/
structure AudioFrame where
  data : List Nat
  sampleRate : ℚ
deriving DecidableEq

/-- Math.round on exact rationals (round half towards positive infinity). -/
def jsRound (q : ℚ) : ℤ := ⌊q + 1/2⌋

/-- freqToIndex: Math.round(freq / nyquist * binCount), nyquist being
sampleRate / 2. -/
def freqToIndex (f : AudioFrame) (freq : ℚ) : ℤ :=
  jsRound (freq / (f.sampleRate / 2) * f.data.length)

/-- The per-band summation loop of analyzeFrequencyBands:
for (i = startIndex; i <= endIndex and i < frequencyData.length; i++)
accumulating the magnitude sum and the bin count. -/
def bandLoop (data : List Nat) (e : ℤ) (i : Nat) : Nat × Nat :=
  if h : (i : ℤ) ≤ e ∧ i < data.length then
    let rest := bandLoop data e (i + 1)
    (data.getD i 0 + rest.1, rest.2 + 1)
  else (0, 0)
termination_by (e + 1 - i).toNat
decreasing_by omega

/-- The pre-emphasis level of one band in analyzeFrequencyBands:
avgLevel = count > 0 ? (sum / count) / 255 : 0.  The start index is
nonnegative whenever the sample rate is positive; .toNat is the cast. -/
def avgLevel (f : AudioFrame) (b : BandKey) : ℚ :=
  let r := bandLoop f.data (freqToIndex f (bandMaxHz b)) (freqToIndex f (bandMinHz b)).toNat
  if 0 < r.2 then ((r.1 : ℚ) / (r.2 : ℚ)) / 255 else 0

variable {K : Type*} [LinearOrderedField K] [FloorRing K]

/-- The bandLevels (raw) and smoothedLevels module state. -/
structure Levels (K : Type*) where
  raw : BandKey → K
  smoothed : BandKey → K

/-- Initial module state: every band level starts at 0. -/
def initLevels : Levels K := ⟨fun _ => 0, fun _ => 0⟩

/-- One exponential smoothing update with smoothFactor = 0.15:
smoothed * (1 - 0.15) + raw * 0.15. -/
def smoothStep (s raw : K) : K := s * (1 - 3/20) + raw * (3/20)

/-- The camelCase key conversion of analyzeFrequencyBands:
key.replace with the pattern underscore-lowercase-letter uppercasing the
group, then toLowerCase, then a lowercased first character.  The regex
character class is lowercase while the CONFIG keys are uppercase, so the
underscore groups never match: SUB_BASS, LOW_MIDS and HIGH_MIDS come out
as the snake_case strings sub_bass, low_mids and high_mids — stray object
keys on bandLevels that neither detectBeat nor the smoothing loop ever
reads — while BASS, MIDS and TREBLE come out as the declared keys bass,
mids and treble.  The result is the declared camelCase field the write
lands on, or none when the write lands on a stray key. -/
def camelKey : BandKey → Option BandKey
  | .bass => some .bass
  | .mids => some .mids
  | .treble => some .treble
  | _ => none

/-- analyzeFrequencyBands.  conn is none when analyser or frequencyData is
not yet set, in which case the function returns immediately and the levels
are unchanged.  shape is the Math.pow emphasis applied to the averaged
level; the engine instantiates it with realShape below (kept as a
parameter because the fractional power exists only on ℝ, while the
scheduling, beat and particle behaviour is independent of it).
The write bandLevels of camelKey gets emphasized: because of the broken
key conversion (see camelKey), the sub-bass, low-mids and high-mids
writes land on stray snake_case keys that nothing reads, so the declared
fields for those bands keep their previous values (the stray write-only
keys are not part of the observable state and are not carried).  The
smoothing loop then reads the declared bandLevels fields — the fresh
value for bass, mids and treble, the untouched one for the rest. -/
def analyzeFrequencyBands (shape : BandKey → ℚ → K) (conn : Option AudioFrame)
    (st : Levels K) : Levels K :=
  match conn with
  | none => st
  | some f =>
    let raw : BandKey → K := fun b =>
      match camelKey b with
      | some b2 => shape b2 (avgLevel f b2)
      | none => st.raw b
    { raw := raw, smoothed := fun b => smoothStep (st.smoothed b) (raw b) }

/-- The beatState module object. -/
structure BeatState (K : Type*) where
  lastBeatTime : K
  beatThreshold : K
  adaptiveThreshold : K
  energyHistory : List K
  bpm : K
  beatPhase : K
  isBeat : Bool

/-- The initial beatState literal of the source. -/
def initBeatState : BeatState K :=
  { lastBeatTime := 0, beatThreshold := 3/5, adaptiveThreshold := 3/5,
    energyHistory := [], bpm := 120, beatPhase := 0, isBeat := false }

/-- The bass-weighted composite energy of detectBeat:
(subBass * 2.0 + bass * 1.5 + lowMids * 0.8 + mids * 0.5) / 4.8. -/
def compositeEnergy (lv : BandKey → K) : K :=
  (lv .subBass * 2 + lv .bass * (3/2) + lv .lowMids * (4/5) + lv .mids * (1/2)) / (24/5)

/-- Truncation towards zero, the rounding used by the JavaScript %
operator on a positive divisor. -/
def jsTrunc (x : K) : ℤ := if 0 ≤ x then ⌊x⌋ else -⌊-x⌋

/-- The JavaScript remainder a % b (for b ≠ 0; the engine only uses it
with a positive divisor 60000 / bpm). -/
def jsMod (a b : K) : K := a - b * (jsTrunc (a / b) : K)

/-- detectBeat.  now is performance.now(); lv is the current bandLevels.
Mirrors the source statement by statement.  Note that the source assigns
beatPhase = 0 inside the trigger branch and then unconditionally
recomputes beatPhase from the timeSinceBeat value captured before
lastBeatTime was reset, so the final beatPhase is always the recomputed
one; the dead store is therefore not represented by a separate field
update here. -/
def detectBeat (now : K) (lv : BandKey → K) (s : BeatState K) : BeatState K :=
  let timeSinceBeat := now - s.lastBeatTime
  let energy := compositeEnergy lv
  let hist1 := s.energyHistory ++ [energy]
  let hist := if 43 < hist1.length then hist1.tail else hist1
  let avgEnergy := hist.sum / (hist.length : K)
  let adaptive := avgEnergy * (7/5) + 1/10
  let isBeat := decide (adaptive < energy) && decide ((200 : K) < timeSinceBeat)
  let bpm := if isBeat ∧ timeSinceBeat < 2000 ∧ (200 : K) < timeSinceBeat then
      s.bpm * (9/10) + (60000 / timeSinceBeat) * (1/10)
    else s.bpm
  let lastBeatTime := if isBeat then now else s.lastBeatTime
  let beatInterval := 60000 / bpm
  let beatPhase := jsMod timeSinceBeat beatInterval / beatInterval
  { lastBeatTime := lastBeatTime, beatThreshold := s.beatThreshold,
    adaptiveThreshold := adaptive, energyHistory := hist, bpm := bpm,
    beatPhase := beatPhase, isBeat := isBeat }

/-- A sequence of detectBeat ticks: each input is the performance.now of
the tick paired with the bandLevels it sees. -/
def runDetect (s : BeatState K) (l : List (K × (BandKey → K))) : BeatState K :=
  l.foldl (fun st m => detectBeat m.1 m.2 st) s

/-- The Particle class fields. -/
structure Particle (K : Type*) where
  x : K
  y : K
  band : BandKey
  life : K
  maxLife : K
  size : K
  speed : K
  decay : K
  vx : K
  vy : K
deriving DecidableEq

/-- The Particle constructor.  rLife, rSize and rSpeed are the
Math.random() draws; cosA and sinA are the cosine and sine of the random
upward-biased angle, supplied by the environment since the trigonometry
of a random angle is irrational.  The source computes
vx = cos(angle) * speed and vy = sin(angle) * speed. -/
def Particle.init (x y : K) (band : BandKey) (rLife rSize rSpeed cosA sinA : K) :
    Particle K :=
  let maxLife := 2 + rLife * 2
  let ssd : K × K × K :=
    match band with
    | .subBass | .bass => (4 + rSize * 6, 3/10 + rSpeed * (3/10), 1/125)
    | .mids | .lowMids => (2 + rSize * 3, 1/2 + rSpeed * (1/2), 3/250)
    | _ => (1 + rSize * 2, 4/5 + rSpeed * (4/5), 9/500)
  { x := x, y := y, band := band, life := 1, maxLife := maxLife,
    size := ssd.1, speed := ssd.2.1, decay := ssd.2.2,
    vx := cosA * ssd.2.1, vy := sinA * ssd.2.1 }

/-- Particle.prototype.update: moves the particle, applies the upward
drift to vy, and decrements life by decay * deltaTime * 0.06.  The source
returns life > 0; the caller keeps the mutated particle when that is
true. -/
def Particle.update (p : Particle K) (dt : K) : Particle K :=
  { p with x := p.x + p.vx * dt * (3/50), y := p.y + p.vy * dt * (3/50),
           vy := p.vy - (1/1000) * dt, life := p.life - p.decay * dt * (3/50) }

/-- updateParticles: particles = particles.filter(p => p.update(deltaTime)).
The filter keeps the updated particle exactly when its remaining life is
positive.  The per-particle rendering is drawing only. -/
def updateParticles (ps : List (Particle K)) (dt : K) : List (Particle K) :=
  ps.filterMap fun p =>
    let q := p.update dt
    if 0 < q.life then some q else none

/-- The bundle of Math.random() position draws and constructor draws
consumed when spawning one particle. -/
structure PDraw (K : Type*) where
  px : K
  py : K
  rLife : K
  rSize : K
  rSpeed : K
  cosA : K
  sinA : K
deriving DecidableEq

/-- The randomness consumed by one spawnParticles call: a draw bundle per
beat-spawned particle, and a roll plus draw bundle for the mids and the
treble spawn sites. -/
structure SpawnEnv (K : Type*) where
  beatDraws : Nat → PDraw K
  midsRoll : K
  midsDraw : PDraw K
  trebleRoll : K
  trebleDraw : PDraw K

/-- A beat-spawned particle: x = random * width,
y = height * (0.6 + random * 0.3), band bass. -/
def mkBeatParticle (w h : K) (d : PDraw K) : Particle K :=
  Particle.init (d.px * w) (h * (3/5 + d.py * (3/10))) .bass
    d.rLife d.rSize d.rSpeed d.cosA d.sinA

/-- A mids-spawned particle: x = random * width,
y = height * (0.4 + random * 0.4), band mids. -/
def mkMidsParticle (w h : K) (d : PDraw K) : Particle K :=
  Particle.init (d.px * w) (h * (2/5 + d.py * (2/5))) .mids
    d.rLife d.rSize d.rSpeed d.cosA d.sinA

/-- A treble-spawned particle: x = random * width,
y = random * height * 0.7, band treble. -/
def mkTrebleParticle (w h : K) (d : PDraw K) : Particle K :=
  Particle.init (d.px * w) (d.py * h * (7/10)) .treble
    d.rLife d.rSize d.rSpeed d.cosA d.sinA

/-- The beat spawn loop of spawnParticles:
for (i = 0; i < count and particles.length < CONFIG.MAX_PARTICLES; i++)
particles.push(new Particle(...)). -/
def beatSpawnLoop (w h : K) (draws : Nat → PDraw K) (count : Nat)
    (ps : List (Particle K)) (i : Nat) : List (Particle K) :=
  if h' : i < count ∧ ps.length < MAX_PARTICLES then
    beatSpawnLoop w h draws count (ps ++ [mkBeatParticle w h (draws i)]) (i + 1)
  else ps
termination_by count - i
decreasing_by omega

/-- spawnParticles.  sBass, sMids and sTreble are the smoothed bass, mids
and treble levels.  The top guard drops every request when the pool is at
or above the cap, and the beat loop re-checks the cap before each push,
but the mids and the treble spawn sites push without re-checking it. -/
def spawnParticles (ps : List (Particle K)) (isBeat : Bool)
    (sBass sMids sTreble : K) (w h : K) (env : SpawnEnv K) : List (Particle K) :=
  if MAX_PARTICLES ≤ ps.length then ps
  else
    let ps1 := if isBeat then
        beatSpawnLoop w h env.beatDraws (3 + ⌊sBass * 8⌋).toNat ps 0
      else ps
    let ps2 := if 3/10 < sMids ∧ env.midsRoll < sMids * (3/10) then
        ps1 ++ [mkMidsParticle w h env.midsDraw]
      else ps1
    let ps3 := if 2/5 < sTreble ∧ env.trebleRoll < sTreble * (2/5) then
        ps2 ++ [mkTrebleParticle w h env.trebleDraw]
      else ps2
    ps3

/-- One element of the orb pool. -/
structure Orb (K : Type*) where
  x : K
  y : K
  radius : K
  band : BandKey
  opacity : K
deriving DecidableEq

/-- The orb pool literal assigned by initializeVisuals. -/
def initOrbs : List (Orb K) :=
  [ { x := 3/10, y := 2/5, radius := 1/4, band := .subBass, opacity := 0 },
    { x := 7/10, y := 3/10, radius := 11/50, band := .bass, opacity := 0 },
    { x := 1/2, y := 3/5, radius := 1/5, band := .lowMids, opacity := 0 },
    { x := 1/5, y := 7/10, radius := 9/50, band := .mids, opacity := 0 },
    { x := 4/5, y := 13/20, radius := 4/25, band := .highMids, opacity := 0 } ]

/-- The module state the verified claims touch.  animationId is whether a
requestAnimationFrame handle is currently held (number versus null in the
source). -/
structure Engine (K : Type*) where
  isEnabled : Bool
  isConnected : Bool
  animationId : Bool
  lastFrameTime : K
  frameCount : Nat
  currentFPS : K
  levels : Levels K
  beat : BeatState K
  particles : List (Particle K)
  orbs : List (Orb K)

/-- The environment one render invocation reads: the audio connection (if
established, the frame it would deliver), performance.now() as sampled
inside detectBeat, the canvas dimensions, and the spawn randomness. -/
structure RenderEnv (K : Type*) where
  conn : Option AudioFrame
  now : K
  canvasW : K
  canvasH : K
  spawn : SpawnEnv K

/-- One invocation of the render callback.  Returns the new engine state,
whether the next callback was scheduled (requestAnimationFrame was
called), and whether the throttled analysis/draw body ran.  The pure
drawing passes (renderAurora, renderBeatFlash, renderFrequencyBars,
renderWaveform) emit pixels only and are not modelled; renderOrbs also
eases orb opacities towards pow(level, 0.8), which no verified claim
depends on.  CONFIG.TARGET_FPS is 60, so the throttle limit below is
1000 / 60 - 2. -/
def render (shape : BandKey → ℚ → K) (env : RenderEnv K) (timestamp : K)
    (s : Engine K) : Engine K × Bool × Bool :=
  if s.isEnabled = false then ({ s with animationId := false }, false, false)
  else
    let deltaTime := timestamp - s.lastFrameTime
    let frameCount := s.frameCount + 1
    let currentFPS := if frameCount % 30 = 0 then 1000 / deltaTime else s.currentFPS
    let s1 : Engine K := { s with animationId := true, lastFrameTime := timestamp,
                                  frameCount := frameCount, currentFPS := currentFPS }
    if deltaTime < 1000 / 60 - 2 then (s1, true, false)
    else
      let levels := analyzeFrequencyBands shape env.conn s1.levels
      let beat := detectBeat env.now levels.raw s1.beat
      let ps1 := spawnParticles s1.particles beat.isBeat (levels.smoothed .bass)
        (levels.smoothed .mids) (levels.smoothed .treble) env.canvasW env.canvasH env.spawn
      let ps2 := updateParticles ps1 deltaTime
      ({ s1 with levels := levels, beat := beat, particles := ps2 }, true, true)

/-- disableLivingBackground: hides the container (DOM only), cancels the
scheduled callback if one is held, and clears the particle pool.  The orb
pool is not touched. -/
def disableLivingBackground (s : Engine K) : Engine K :=
  { s with animationId := false, particles := [] }

/-- enableLivingBackground: shows the container, starts
extractDominantColor (asynchronous; affects only the dominant color, not
the state modelled here), runs initializeVisuals — which, when the canvas
element is found, re-creates the orb pool from scratch — calls
connectAudio when unconnected (asynchronous; sets up the analyser), and
schedules the render callback when no handle is held, resetting
lastFrameTime to performance.now(). -/
def enableLivingBackground (canvasFound : Bool) (now : K) (s : Engine K) : Engine K :=
  let s1 := if canvasFound then { s with orbs := initOrbs } else s
  if s1.animationId = false then { s1 with lastFrameTime := now, animationId := true }
  else s1

/-- The toggle click handler: flips isEnabled, then enables or disables
accordingly. -/
def toggleClick (canvasFound : Bool) (now : K) (s : Engine K) : Engine K :=
  let s1 : Engine K := { s with isEnabled := !s.isEnabled }
  if s1.isEnabled then enableLivingBackground canvasFound now s1
  else disableLivingBackground s1

/-- The Math.pow emphasis of analyzeFrequencyBands: exponent 0.8 for
SUB_BASS and BASS, 1.2 for TREBLE, and no emphasis otherwise. -/
noncomputable def realShape : BandKey → ℚ → ℝ := fun b x =>
  match b with
  | .subBass | .bass => (x : ℝ) ^ (0.8 : ℝ)
  | .treble => (x : ℝ) ^ (1.2 : ℝ)
  | _ => (x : ℝ)

/-- The shaping exponents as the specification states them: 0.8 for
sub-bass and bass, 1.2 for treble, 1.0 otherwise. -/
noncomputable def specExp : BandKey → ℝ
  | .subBass => 0.8
  | .bass => 0.8
  | .treble => 1.2
  | _ => 1

/-- The raw band level as the specification words it: the average of the
magnitudes over the inclusive bin range from round(minHz/nyquist*binCount)
to round(maxHz/nyquist*binCount), divided by 255, raised to the band
shaping exponent.  Written from the specification, to be compared with
the source embedding. -/
noncomputable def bandRawSpec (f : AudioFrame) (b : BandKey) : ℝ :=
  let lo := (jsRound (bandMinHz b / (f.sampleRate / 2) * f.data.length)).toNat
  let hi := (jsRound (bandMaxHz b / (f.sampleRate / 2) * f.data.length)).toNat
  let n := hi + 1 - lo
  ((((List.range' lo n).map fun i => f.data.getD i 0).sum / (n : ℚ) / 255 : ℚ) : ℝ)
    ^ specExp b

/-- The smoothed level of one band under a raw step input held at 1,
starting from smoothed level s0 (exact-arithmetic model of the smoothing
recurrence at ℚ). -/
def stepResponse (s0 : ℚ) : Nat → ℚ
  | 0 => s0
  | n + 1 => smoothStep (stepResponse s0 n) 1

/-- Placeholder emphasis used where an evaluation is independent of the
shaping function. -/
def qShape : BandKey → ℚ → ℚ := fun _ x => x

/-- The beat state after one silent tick at 10 ms from the initial state:
energy history [0], adaptive threshold 0.1, no beat yet. -/
def silentState : BeatState ℚ := detectBeat 10 (fun _ => 0) initBeatState

/-- An all-zero draw bundle. -/
def pdraw0 : PDraw ℚ := ⟨0, 0, 0, 0, 0, 0, 0⟩

/-- A concrete spawn environment whose rolls always pass. -/
def spawnEnv0 : SpawnEnv ℚ := ⟨fun _ => pdraw0, 0, pdraw0, 0, pdraw0⟩

/-- A concrete render environment with no audio connection. -/
def renderEnv0 : RenderEnv ℚ := ⟨none, 0, 100, 100, spawnEnv0⟩

/-- A concrete bass particle with full life. -/
def p0 : Particle ℚ := Particle.init 0 0 .bass 0 0 0 0 0

/-- A pool of 99 live particles, one below the cap. -/
def ps99 : List (Particle ℚ) := List.replicate 99 p0

/-- A concrete enabled engine state used for render evaluations. -/
def c6engine : Engine ℚ :=
  { isEnabled := true, isConnected := false, animationId := true,
    lastFrameTime := 0, frameCount := 0, currentFPS := 60,
    levels := initLevels, beat := initBeatState, particles := [], orbs := initOrbs }

/-- A concrete mid-animation engine state: one live particle, and an orb
pool that differs from the initializeVisuals literal (an orb has faded
in to opacity one half). -/
def c7engine : Engine ℚ :=
  { isEnabled := true, isConnected := false, animationId := true,
    lastFrameTime := 0, frameCount := 0, currentFPS := 60,
    levels := initLevels, beat := initBeatState, particles := [p0],
    orbs := [ { x := 0, y := 0, radius := 1/4, band := .bass, opacity := 1/2 } ] }

/-- A concrete four-bin frame at a 44100 Hz sample rate whose sub-bass bin
range collapses to bin 0, which holds a full-scale magnitude. -/
def wFrame : AudioFrame := ⟨[255, 0, 0, 0], 44100⟩

/-- A beat tick emits a beat exactly when the composite energy exceeds the
adaptive threshold computed on that tick and strictly more than 200 ms
have elapsed since lastBeatTime. -/
theorem detectBeat_isBeat_iff (now : K) (lv : BandKey → K) (s : BeatState K) :
    (detectBeat now lv s).isBeat = true ↔
      (detectBeat now lv s).adaptiveThreshold < compositeEnergy lv ∧
        (200 : K) < now - s.lastBeatTime := by
  simp [detectBeat]

/-- No beat is emitted when at most 200 ms have elapsed since
lastBeatTime. -/
theorem detectBeat_not_isBeat (now : K) (lv : BandKey → K) (s : BeatState K)
    (h : ¬ (200 : K) < now - s.lastBeatTime) :
    (detectBeat now lv s).isBeat = false := by
  simp [detectBeat, h]

/-- lastBeatTime after a tick, characterized by the isBeat flag of that
tick. -/
theorem detectBeat_lastBeatTime_eq (now : K) (lv : BandKey → K) (s : BeatState K) :
    (detectBeat now lv s).lastBeatTime
      = if (detectBeat now lv s).isBeat then now else s.lastBeatTime := by
  simp only [detectBeat]

/-- A tick on which a beat is emitted resets lastBeatTime to now. -/
theorem detectBeat_lastBeatTime_beat (now : K) (lv : BandKey → K) (s : BeatState K)
    (h : (detectBeat now lv s).isBeat = true) :
    (detectBeat now lv s).lastBeatTime = now := by
  rw [detectBeat_lastBeatTime_eq, h]
  simp

/-- A tick on which no beat is emitted leaves lastBeatTime unchanged. -/
theorem detectBeat_lastBeatTime_nobeat (now : K) (lv : BandKey → K) (s : BeatState K)
    (h : (detectBeat now lv s).isBeat = false) :
    (detectBeat now lv s).lastBeatTime = s.lastBeatTime := by
  rw [detectBeat_lastBeatTime_eq, h]
  simp

/-- lastBeatTime after a tick is either now or the previous value. -/
theorem detectBeat_lastBeatTime_or (now : K) (lv : BandKey → K) (s : BeatState K) :
    (detectBeat now lv s).lastBeatTime = now ∨
      (detectBeat now lv s).lastBeatTime = s.lastBeatTime := by
  cases h : (detectBeat now lv s).isBeat with
  | true => exact Or.inl (detectBeat_lastBeatTime_beat now lv s h)
  | false => exact Or.inr (detectBeat_lastBeatTime_nobeat now lv s h)

/-- A lower bound on lastBeatTime is preserved by a tick whose time also
respects the bound. -/
theorem detectBeat_lastBeatTime_ge (t1 now : K) (lv : BandKey → K) (s : BeatState K)
    (h1 : t1 ≤ s.lastBeatTime) (h2 : t1 ≤ now) :
    t1 ≤ (detectBeat now lv s).lastBeatTime := by
  rcases detectBeat_lastBeatTime_or now lv s with h | h <;> rw [h] <;> assumption

theorem runDetect_cons (s : BeatState K) (m : K × (BandKey → K))
    (l : List (K × (BandKey → K))) :
    runDetect s (m :: l) = runDetect (detectBeat m.1 m.2 s) l := rfl

theorem runDetect_append (s : BeatState K) (l : List (K × (BandKey → K)))
    (m : K × (BandKey → K)) :
    runDetect s (l ++ [m]) = detectBeat m.1 m.2 (runDetect s l) := by
  simp [runDetect, List.foldl_append]

/-- A lower bound on lastBeatTime is preserved by any run whose tick times
respect the bound. -/
theorem runDetect_lastBeatTime_ge (t1 : K) (s : BeatState K)
    (ms : List (K × (BandKey → K))) (h1 : t1 ≤ s.lastBeatTime)
    (hms : ∀ m ∈ ms, t1 ≤ m.1) :
    t1 ≤ (runDetect s ms).lastBeatTime := by
  induction ms generalizing s with
  | nil => exact h1
  | cons m ms ih =>
      rw [runDetect_cons]
      exact ih _ (detectBeat_lastBeatTime_ge t1 m.1 m.2 s h1 (hms m (by simp)))
        (fun x hx => hms x (by simp [hx]))

/-- The energy history after a tick: push the composite energy, then shift
once when the length exceeds 43. -/
theorem detectBeat_energyHistory (now : K) (lv : BandKey → K) (s : BeatState K) :
    (detectBeat now lv s).energyHistory
      = if 43 < (s.energyHistory ++ [compositeEnergy lv]).length then
          (s.energyHistory ++ [compositeEnergy lv]).tail
        else s.energyHistory ++ [compositeEnergy lv] := by
  simp only [detectBeat]

/-- The adaptive threshold after a tick equals the mean of the updated
energy history times 1.4 plus 0.1. -/
theorem detectBeat_adaptiveThreshold (now : K) (lv : BandKey → K) (s : BeatState K) :
    (detectBeat now lv s).adaptiveThreshold
      = (detectBeat now lv s).energyHistory.sum
          / ((detectBeat now lv s).energyHistory.length : K) * (7/5) + 1/10 := by
  simp only [detectBeat]

/-- After running from the initial state, the energy history is exactly
the suffix of the composite energies seen so far of length at most 43. -/
theorem runDetect_energyHistory (l : List (K × (BandKey → K))) :
    (runDetect (initBeatState (K := K)) l).energyHistory
      = (l.map fun m => compositeEnergy m.2).drop (l.length - 43) := by
  induction l using List.reverseRecOn with
  | nil => simp [runDetect, initBeatState]
  | append_singleton l m ih =>
      rw [runDetect_append, detectBeat_energyHistory, ih]
      by_cases h : l.length + 1 ≤ 43
      · have h0 : l.length - 43 = 0 := by omega
        have h1 : l.length + 1 - 43 = 0 := by omega
        simp [h0, h1]
        intro hc
        omega
      · have h43 : 43 ≤ l.length := by omega
        have hlen : ((l.map fun m => compositeEnergy m.2).drop (l.length - 43)).length = 43 := by
          simp [List.length_drop]
          omega
        have hcond : 43 <
            ((l.map fun m => compositeEnergy m.2).drop (l.length - 43)
              ++ [compositeEnergy m.2]).length := by
          simp [hlen]
        rw [if_pos hcond]
        have hle : l.length - 43 ≤ (l.map fun m => compositeEnergy m.2).length := by
          simp
        rw [← List.drop_append_of_le_length hle, List.tail_drop]
        simp
        congr 1
        omega

/-- A single tick keeps the estimated BPM inside the band from 30 to
300, since the instantaneous BPM blended in is 60000 over a time strictly
between 200 and 2000. -/
theorem detectBeat_bpm_eq (now : K) (lv : BandKey → K) (s : BeatState K) :
    (detectBeat now lv s).bpm
      = if (detectBeat now lv s).isBeat ∧ now - s.lastBeatTime < 2000
            ∧ (200 : K) < now - s.lastBeatTime then
          s.bpm * (9/10) + (60000 / (now - s.lastBeatTime)) * (1/10)
        else s.bpm := by
  simp only [detectBeat]

theorem detectBeat_bpm_bounds (now : K) (lv : BandKey → K) (s : BeatState K)
    (h1 : 30 ≤ s.bpm) (h2 : s.bpm ≤ 300) :
    30 ≤ (detectBeat now lv s).bpm ∧ (detectBeat now lv s).bpm ≤ 300 := by
  rw [detectBeat_bpm_eq]
  by_cases h : (detectBeat now lv s).isBeat = true ∧ now - s.lastBeatTime < 2000
      ∧ (200 : K) < now - s.lastBeatTime
  · rw [if_pos h]
    obtain ⟨-, hlt, hgt⟩ := h
    have hts : (0 : K) < now - s.lastBeatTime := lt_trans (by norm_num) hgt
    have hi1 : (30 : K) < 60000 / (now - s.lastBeatTime) := by
      rw [lt_div_iff₀ hts]
      linarith
    have hi2 : (60000 : K) / (now - s.lastBeatTime) < 300 := by
      rw [div_lt_iff₀ hts]
      linarith
    constructor <;> linarith
  · rw [if_neg h]
    exact ⟨h1, h2⟩

/-- Any run keeps the estimated BPM inside the band from 30 to 300. -/
theorem runDetect_bpm_bounds (s : BeatState K) (l : List (K × (BandKey → K)))
    (h1 : 30 ≤ s.bpm) (h2 : s.bpm ≤ 300) :
    30 ≤ (runDetect s l).bpm ∧ (runDetect s l).bpm ≤ 300 := by
  induction l generalizing s with
  | nil => exact ⟨h1, h2⟩
  | cons m ms ih =>
      rw [runDetect_cons]
      obtain ⟨g1, g2⟩ := detectBeat_bpm_bounds m.1 m.2 s h1 h2
      exact ih _ g1 g2

/-- The closed form of the step response: the distance to 1 shrinks by
the factor 17/20 every tick. -/
theorem stepResponse_closed (s0 : ℚ) (n : ℕ) :
    1 - stepResponse s0 n = (17/20) ^ n * (1 - s0) := by
  induction n with
  | zero => simp [stepResponse]
  | succ n ih =>
      calc 1 - stepResponse s0 (n + 1)
          = (17/20) * (1 - stepResponse s0 n) := by
            simp only [stepResponse, smoothStep]
            ring
        _ = (17/20) * ((17/20) ^ n * (1 - s0)) := by rw [ih]
        _ = (17/20) ^ (n + 1) * (1 - s0) := by ring

omit [FloorRing K] in
/-- A tick on which every particle survives the life decrement keeps the
pool length unchanged. -/
theorem updateParticles_all_alive (ps : List (Particle K)) (dt : K)
    (h : ∀ p ∈ ps, 0 < (Particle.update p dt).life) :
    (updateParticles ps dt).length = ps.length := by
  induction ps with
  | nil => rfl
  | cons p ps ih =>
      have hp := h p (by simp)
      simp only [updateParticles, List.filterMap_cons] at ih ⊢
      rw [if_pos hp]
      simp only [List.length_cons]
      rw [ih (fun q hq => h q (by simp [hq]))]

/-- The beat spawn loop from the 99-particle pool with count 3 pushes
exactly one particle: the second iteration finds the pool at the cap. -/
theorem beatSpawnLoop_ps99 :
    beatSpawnLoop (100 : ℚ) 100 (fun _ => pdraw0) 3 ps99 0
      = ps99 ++ [mkBeatParticle 100 100 pdraw0] := by
  rw [beatSpawnLoop]
  rw [dif_pos (by simp [ps99, MAX_PARTICLES])]
  rw [beatSpawnLoop]
  rw [dif_neg (by simp [ps99, MAX_PARTICLES])]

/-- The spawnParticles call of the C1 scenario appends one beat particle,
one mids particle and one treble particle to the 99-particle pool. -/
theorem spawnParticles_ps99 :
    spawnParticles ps99 true 0 (1/2) (1/2) 100 100 spawnEnv0
      = ps99 ++ [mkBeatParticle 100 100 pdraw0]
          ++ [mkMidsParticle 100 100 pdraw0] ++ [mkTrebleParticle 100 100 pdraw0] := by
  rw [spawnParticles]
  rw [if_neg (by simp [ps99, MAX_PARTICLES])]
  have hcount : (3 + ⌊(0 : ℚ) * 8⌋).toNat = 3 := by simp
  simp only [if_true, hcount, spawnEnv0, beatSpawnLoop_ps99]
  rw [if_pos (by norm_num), if_pos (by norm_num)]

/-- C1 (code bug): from a pool of 99 live particles, one beat tick whose
mids and treble spawn conditions also pass leaves 102 live particles
after spawnParticles and updateParticles, exceeding
CONFIG.MAX_PARTICLES = 100 — the mids and treble spawn sites push without
re-checking the cap. -/
theorem c1_particle_cap_exceeded :
    ps99.length = 99 ∧
    (updateParticles (spawnParticles ps99 true 0 (1/2) (1/2) 100 100 spawnEnv0) 1).length
      = 102 ∧
    MAX_PARTICLES < 102 := by
  refine ⟨by simp [ps99], ?_, by norm_num [MAX_PARTICLES]⟩
  rw [spawnParticles_ps99, updateParticles_all_alive]
  · simp [ps99]
  · intro p hp
    simp only [ps99, List.append_assoc, List.mem_append, List.mem_singleton] at hp
    rcases hp with hp | hp | hp | hp
    · rw [List.eq_of_mem_replicate hp]
      norm_num [p0, Particle.init, Particle.update]
    · rw [hp]
      norm_num [mkBeatParticle, pdraw0, Particle.init, Particle.update]
    · rw [hp]
      norm_num [mkMidsParticle, pdraw0, Particle.init, Particle.update]
    · rw [hp]
      norm_num [mkTrebleParticle, pdraw0, Particle.init, Particle.update]

/-- C2 (code bug): on a tick that triggers a beat (300 ms after a silent
tick, with full band levels), detectBeat returns with beatPhase 16/25,
not 0 — the reset of beatPhase to 0 is overwritten by the unconditional
phase update, which uses the elapsed time captured before lastBeatTime
was reset. -/
theorem c2_beatPhase_not_reset :
    (detectBeat 300 (fun _ => (1 : ℚ)) silentState).isBeat = true ∧
    (detectBeat 300 (fun _ => (1 : ℚ)) silentState).beatPhase = 16/25 ∧
    (detectBeat 300 (fun _ => (1 : ℚ)) silentState).beatPhase ≠ 0 := by
  norm_num [detectBeat, silentState, initBeatState, compositeEnergy, jsMod, jsTrunc]

/-- C3 counterexample: on a tick exactly 200 ms after lastBeatTime whose
composite energy exceeds the adaptive threshold, the source emits no
beat, refuting the claim that a beat is emitted whenever at least 200 ms
have elapsed. -/
theorem c3_boundary_counterexample :
    (detectBeat 200 (fun _ => (1 : ℚ)) silentState).adaptiveThreshold
        < compositeEnergy (fun _ => (1 : ℚ)) ∧
    (200 : ℚ) - silentState.lastBeatTime ≥ 200 ∧
    (detectBeat 200 (fun _ => (1 : ℚ)) silentState).isBeat = false := by
  norm_num [detectBeat, silentState, initBeatState, compositeEnergy]

/-- C3 (amended: the interval gate is strict, more than 200 ms rather
than at least 200 ms): (a) once a tick emits a beat, any later tick
within 200 ms of it — with any ticks in between, all at times at or
after the beat — emits no beat, so two spikes closer than
minBeatInterval yield at most one beat; (b) whenever the composite
energy exceeds the adaptive threshold computed on the tick and strictly
more than 200 ms have elapsed since lastBeatTime, the tick emits a
beat. -/
theorem c3_beat_gating :
    (∀ (s : BeatState K) (t1 : K) (lv1 : BandKey → K)
        (ms : List (K × (BandKey → K))) (t2 : K) (lv2 : BandKey → K),
        (detectBeat t1 lv1 s).isBeat = true →
        (∀ m ∈ ms, t1 ≤ m.1) →
        t2 - t1 < 200 →
        (detectBeat t2 lv2 (runDetect (detectBeat t1 lv1 s) ms)).isBeat = false) ∧
    (∀ (s : BeatState K) (now : K) (lv : BandKey → K),
        (detectBeat now lv s).adaptiveThreshold < compositeEnergy lv →
        (200 : K) < now - s.lastBeatTime →
        (detectBeat now lv s).isBeat = true) := by
  constructor
  · intro s t1 lv1 ms t2 lv2 hb hms hlt
    have hge : t1 ≤ (runDetect (detectBeat t1 lv1 s) ms).lastBeatTime :=
      runDetect_lastBeatTime_ge t1 _ ms
        (le_of_eq (detectBeat_lastBeatTime_beat t1 lv1 s hb).symm) hms
    exact detectBeat_not_isBeat t2 lv2 _ (not_lt.mpr (by linarith))
  · intro s now lv h1 h2
    rw [detectBeat_isBeat_iff]
    exact ⟨h1, h2⟩

/-- Witness for the amended C3 at concrete inputs: the spike at 300 ms
triggers a beat, and a second spike 100 ms later is gated off. -/
theorem c3_beat_gating_witness :
    (detectBeat 400 (fun _ => (1 : ℚ))
        (runDetect (detectBeat 300 (fun _ => (1 : ℚ)) silentState) [])).isBeat = false ∧
    (detectBeat 300 (fun _ => (1 : ℚ)) silentState).isBeat = true :=
  ⟨c3_beat_gating.1 silentState 300 (fun _ => 1) [] 400 (fun _ => 1)
      (by norm_num [detectBeat, silentState, initBeatState, compositeEnergy])
      (by simp) (by norm_num),
   c3_beat_gating.2 silentState 300 (fun _ => 1)
      (by norm_num [detectBeat, silentState, initBeatState, compositeEnergy])
      (by norm_num [silentState, detectBeat, initBeatState, compositeEnergy])⟩

/-- Every element of a list of naturals bounded by n sums to at most
length times n. -/
theorem sum_le_mul_of_forall_le (l : List Nat) (n : Nat) (h : ∀ x ∈ l, x ≤ n) :
    l.sum ≤ l.length * n := by
  induction l with
  | nil => simp
  | cons a l ih =>
      simp only [List.sum_cons, List.length_cons]
      have h1 := ih (fun x hx => h x (by simp [hx]))
      have h2 := h a (by simp)
      have h3 : (l.length + 1) * n = l.length * n + n := by ring
      omega

/-- Every byte magnitude read through getD is at most 255. -/
theorem getD_le_255 (data : List Nat) (hbytes : ∀ x ∈ data, x ≤ 255) (j : Nat) :
    data.getD j 0 ≤ 255 := by
  by_cases hj : j < data.length
  · rw [List.getD_eq_getElem data 0 hj]
    exact hbytes _ (List.getElem_mem hj)
  · rw [List.getD_eq_default data 0 (by omega)]
    norm_num

/-- The summation loop evaluated on an in-range window from i to e
inclusive: it sums the magnitudes of those bins and counts them. -/
theorem bandLoop_spec (data : List Nat) (e : ℤ) (hlt : e.toNat < data.length)
    (h0 : 0 ≤ e) :
    ∀ k i, i + k = e.toNat →
      bandLoop data e i
        = (((List.range' i (k + 1)).map fun j => data.getD j 0).sum, k + 1) := by
  intro k
  induction k with
  | zero =>
      intro i hi
      rw [bandLoop, dif_pos (by omega)]
      rw [bandLoop, dif_neg (by omega)]
      simp [List.range'_one]
  | succ k ih =>
      intro i hi
      rw [bandLoop, dif_pos (by omega)]
      simp only [ih (i + 1) (by omega), List.range'_succ, List.map_cons, List.sum_cons]

/-- For a band whose key conversion lands on its declared field (bass,
mids or treble), assuming a positive sample rate, an end bin index inside
the frame and byte magnitudes, the raw level written by
analyzeFrequencyBands equals the specification formula — the average of
the magnitudes over the inclusive bin range from
round(minHz/nyquist*binCount) to round(maxHz/nyquist*binCount), divided
by 255 and raised to the band shaping exponent — and the result lies in
the closed interval from 0 to 1. -/
theorem bandRaw_correct_key_formula (f : AudioFrame) (b : BandKey) (st : Levels ℝ)
    (hb : camelKey b = some b)
    (hsr : 0 < f.sampleRate)
    (hub : (freqToIndex f (bandMaxHz b)).toNat < f.data.length)
    (hbytes : ∀ x ∈ f.data, x ≤ 255) :
    (analyzeFrequencyBands realShape (some f) st).raw b = bandRawSpec f b ∧
    0 ≤ (analyzeFrequencyBands realShape (some f) st).raw b ∧
    (analyzeFrequencyBands realShape (some f) st).raw b ≤ 1 := by
  have hnyq : (0 : ℚ) < f.sampleRate / 2 := by positivity
  have hlen0 : (0 : ℚ) ≤ (f.data.length : ℚ) := by positivity
  have hband : (0 : ℚ) ≤ bandMinHz b ∧ bandMinHz b ≤ bandMaxHz b := by
    cases b <;> norm_num [bandMinHz, bandMaxHz]
  have hx0 : (0 : ℚ) ≤ bandMinHz b / (f.sampleRate / 2) * f.data.length :=
    mul_nonneg (div_nonneg hband.1 hnyq.le) hlen0
  have hxy : bandMinHz b / (f.sampleRate / 2) * f.data.length
      ≤ bandMaxHz b / (f.sampleRate / 2) * f.data.length := by
    have h1 : bandMinHz b / (f.sampleRate / 2) ≤ bandMaxHz b / (f.sampleRate / 2) := by
      rw [div_eq_mul_inv, div_eq_mul_inv]
      exact mul_le_mul_of_nonneg_right hband.2 (inv_nonneg.mpr hnyq.le)
    exact mul_le_mul_of_nonneg_right h1 hlen0
  have hs0 : 0 ≤ freqToIndex f (bandMinHz b) := by
    rw [freqToIndex, jsRound]
    exact Int.le_floor.mpr (by push_cast; linarith)
  have hse : freqToIndex f (bandMinHz b) ≤ freqToIndex f (bandMaxHz b) := by
    rw [freqToIndex, freqToIndex, jsRound, jsRound]
    exact Int.floor_mono (by linarith)
  have h0e : 0 ≤ freqToIndex f (bandMaxHz b) := le_trans hs0 hse
  have hsle : (freqToIndex f (bandMinHz b)).toNat ≤ (freqToIndex f (bandMaxHz b)).toNat := by
    omega
  have hloop := bandLoop_spec f.data (freqToIndex f (bandMaxHz b)) hub h0e
    ((freqToIndex f (bandMaxHz b)).toNat - (freqToIndex f (bandMinHz b)).toNat)
    (freqToIndex f (bandMinHz b)).toNat (by omega)
  have hcnt : (freqToIndex f (bandMaxHz b)).toNat + 1 - (freqToIndex f (bandMinHz b)).toNat
      = (freqToIndex f (bandMaxHz b)).toNat - (freqToIndex f (bandMinHz b)).toNat + 1 := by
    omega
  have havg : avgLevel f b
      = (((List.range' (freqToIndex f (bandMinHz b)).toNat
              ((freqToIndex f (bandMaxHz b)).toNat
                - (freqToIndex f (bandMinHz b)).toNat + 1)).map
            fun j => f.data.getD j 0).sum : ℚ)
          / (((freqToIndex f (bandMaxHz b)).toNat
                - (freqToIndex f (bandMinHz b)).toNat + 1 : ℕ) : ℚ) / 255 := by
    simp only [avgLevel, hloop]
    rw [if_pos (Nat.succ_pos _)]
  have hsum_le : (((List.range' (freqToIndex f (bandMinHz b)).toNat
          ((freqToIndex f (bandMaxHz b)).toNat
            - (freqToIndex f (bandMinHz b)).toNat + 1)).map
        fun j => f.data.getD j 0).sum)
      ≤ ((freqToIndex f (bandMaxHz b)).toNat
          - (freqToIndex f (bandMinHz b)).toNat + 1) * 255 := by
    have hlist : ∀ x ∈ (List.range' (freqToIndex f (bandMinHz b)).toNat
        ((freqToIndex f (bandMaxHz b)).toNat
          - (freqToIndex f (bandMinHz b)).toNat + 1)).map
          (fun j => f.data.getD j 0), x ≤ 255 := by
      intro x hx
      simp only [List.mem_map] at hx
      obtain ⟨j, -, rfl⟩ := hx
      exact getD_le_255 f.data hbytes j
    have h := sum_le_mul_of_forall_le _ 255 hlist
    simpa using h
  have havg0 : 0 ≤ avgLevel f b := by
    rw [havg]
    positivity
  have havg1 : avgLevel f b ≤ 1 := by
    rw [havg]
    rw [div_le_one (by norm_num : (0 : ℚ) < 255)]
    rw [div_le_iff₀ (by exact_mod_cast Nat.succ_pos _)]
    have h2 : (((List.range' (freqToIndex f (bandMinHz b)).toNat
            ((freqToIndex f (bandMaxHz b)).toNat
              - (freqToIndex f (bandMinHz b)).toNat + 1)).map
          fun j => f.data.getD j 0).sum)
        ≤ 255 * ((freqToIndex f (bandMaxHz b)).toNat
            - (freqToIndex f (bandMinHz b)).toNat + 1) := by
      omega
    exact_mod_cast h2
  have hraw : (analyzeFrequencyBands realShape (some f) st).raw b
      = realShape b (avgLevel f b) := by
    simp only [analyzeFrequencyBands]
    rw [hb]
  have hspec : bandRawSpec f b = ((avgLevel f b : ℚ) : ℝ) ^ specExp b := by
    have e1 : jsRound (bandMinHz b / (f.sampleRate / 2) * f.data.length)
        = freqToIndex f (bandMinHz b) := rfl
    have e2 : jsRound (bandMaxHz b / (f.sampleRate / 2) * f.data.length)
        = freqToIndex f (bandMaxHz b) := rfl
    simp only [bandRawSpec, e1, e2, hcnt]
    rw [havg]
  have hcast0 : (0 : ℝ) ≤ ((avgLevel f b : ℚ) : ℝ) := by exact_mod_cast havg0
  have hcast1 : ((avgLevel f b : ℚ) : ℝ) ≤ 1 := by exact_mod_cast havg1
  refine ⟨?_, ?_, ?_⟩
  · rw [hraw, hspec]
    cases b <;> simp [realShape, specExp, Real.rpow_one]
  · rw [hraw]
    cases b <;> simp only [realShape] <;>
      first
        | exact Real.rpow_nonneg hcast0 _
        | exact hcast0
  · rw [hraw]
    cases b <;> simp only [realShape] <;>
      first
        | exact Real.rpow_le_one hcast0 hcast1 (by norm_num)
        | exact hcast1

/-- C4 (code bug): the case-sensitive camelCase conversion of
analyzeFrequencyBands never matches the uppercase CONFIG keys, so the
sub-bass, low-mids and high-mids levels are written to stray snake_case
keys that nothing reads: the declared subBass, lowMids and highMids raw
levels are never updated by an analysis tick, and at a four-bin frame at
44100 Hz whose sub-bass range collapses to bin 0 holding the full-scale
magnitude 255, the program leaves bandLevels.subBass at 0 where the
claimed formula gives 1. -/
theorem c4_band_key_mismatch :
    (∀ (f : AudioFrame) (st : Levels ℝ),
      (analyzeFrequencyBands realShape (some f) st).raw .subBass = st.raw .subBass ∧
      (analyzeFrequencyBands realShape (some f) st).raw .lowMids = st.raw .lowMids ∧
      (analyzeFrequencyBands realShape (some f) st).raw .highMids = st.raw .highMids) ∧
    (analyzeFrequencyBands realShape (some wFrame) initLevels).raw .subBass = 0 ∧
    bandRawSpec wFrame .subBass = 1 := by
  refine ⟨fun f st => ⟨rfl, rfl, rfl⟩, rfl, ?_⟩
  have h1 : jsRound (bandMinHz .subBass / (wFrame.sampleRate / 2) * wFrame.data.length)
      = 0 := by
    norm_num [jsRound, wFrame, bandMinHz]
  have h2 : jsRound (bandMaxHz .subBass / (wFrame.sampleRate / 2) * wFrame.data.length)
      = 0 := by
    norm_num [jsRound, wFrame, bandMaxHz]
  have hval : bandRawSpec wFrame .subBass = ((1 : ℚ) : ℝ) ^ specExp .subBass := by
    simp only [bandRawSpec, h1, h2]
    norm_num [List.range'_one, wFrame]
  rw [hval, Rat.cast_one, Real.one_rpow]

/-- C5: after every detectBeat call from the initial state, the adaptive
threshold equals the mean of the energy history times 1.4 plus 0.1, and
the energy history is exactly the at most 43 most recent composite
energies, composite energy being the bass-weighted sum divided by 4.8
(as defined in compositeEnergy). -/
theorem c5_adaptive_threshold (l : List (K × (BandKey → K))) (now : K)
    (lv : BandKey → K) :
    (detectBeat now lv (runDetect initBeatState l)).adaptiveThreshold
      = (detectBeat now lv (runDetect initBeatState l)).energyHistory.sum
          / ((detectBeat now lv (runDetect initBeatState l)).energyHistory.length : K)
          * (7/5) + 1/10 ∧
    (detectBeat now lv (runDetect initBeatState l)).energyHistory
      = ((l.map fun m => compositeEnergy m.2) ++ [compositeEnergy lv]).drop
          ((l.length + 1) - 43) := by
  refine ⟨detectBeat_adaptiveThreshold now lv _, ?_⟩
  have h := runDetect_energyHistory (K := K) (l ++ [(now, lv)])
  rw [runDetect_append] at h
  simpa using h

/-- C8 counterexample: at the admissible initial smoothed level 1, the
step response is constant, so it is not strictly increasing. -/
theorem c8_monotone_counterexample :
    (0 : ℚ) ≤ 1 ∧ (1 : ℚ) ≤ 1 ∧ stepResponse 1 1 = stepResponse 1 0 ∧
    ¬ stepResponse 1 0 < stepResponse 1 1 := by
  norm_num [stepResponse, smoothStep]

/-- C8 (amended: for initial smoothed levels in the half-open interval
from 0 to 1): under a raw step input held at 1, the smoothed level is
strictly increasing, always stays below 1 (so it never overshoots and,
being monotone, never oscillates), and approaches 1. -/
theorem c8_step_response (s0 : ℚ) (h0 : 0 ≤ s0) (h1 : s0 < 1) :
    (∀ n, stepResponse s0 n < stepResponse s0 (n + 1)) ∧
    (∀ n, stepResponse s0 n < 1) ∧
    (∀ ε : ℚ, 0 < ε → ∃ N, ∀ n, N ≤ n → 1 - stepResponse s0 n < ε) := by
  have hlt : ∀ n, stepResponse s0 n < 1 := by
    intro n
    have hc := stepResponse_closed s0 n
    have hp : (0 : ℚ) < (17/20) ^ n * (1 - s0) :=
      mul_pos (pow_pos (by norm_num) n) (by linarith)
    linarith
  refine ⟨?_, hlt, ?_⟩
  · intro n
    have hn := hlt n
    simp only [stepResponse, smoothStep]
    linarith
  · intro ε hε
    obtain ⟨N, hN⟩ := exists_pow_lt_of_lt_one hε (by norm_num : (17/20 : ℚ) < 1)
    refine ⟨N, fun n hn => ?_⟩
    have hc := stepResponse_closed s0 n
    have hmono : (17/20 : ℚ) ^ n ≤ (17/20) ^ N :=
      pow_le_pow_of_le_one (by norm_num) (by norm_num) hn
    have hp : (0 : ℚ) ≤ (17/20 : ℚ) ^ n := le_of_lt (pow_pos (by norm_num) n)
    calc 1 - stepResponse s0 n = (17/20) ^ n * (1 - s0) := hc
      _ ≤ (17/20) ^ n * 1 := mul_le_mul_of_nonneg_left (by linarith) hp
      _ = (17/20) ^ n := mul_one _
      _ ≤ (17/20) ^ N := hmono
      _ < ε := hN

/-- Witness for the amended C8 at the concrete initial level one half. -/
theorem c8_step_response_witness :
    stepResponse (1/2) 0 < stepResponse (1/2) 1 ∧ stepResponse (1/2) 3 < 1 :=
  ⟨(c8_step_response (1/2) (by norm_num) (by norm_num)).1 0,
   (c8_step_response (1/2) (by norm_num) (by norm_num)).2.1 3⟩

/-- C6 counterexample: with 15 ms elapsed (less than 1000/60, about
16.7 ms) the body runs, because the source threshold is 1000/60 minus 2;
and after a skipped invocation at 14 ms, the invocation at 20 ms is also
skipped even though more than 1000/60 ms elapsed since the last executed
frame at time 0, because lastFrameTime advances on skipped invocations
too. -/
theorem c6_throttle_counterexample :
    ((15 : ℚ) - c6engine.lastFrameTime < 1000 / 60 ∧
      (render qShape renderEnv0 15 c6engine).2.2 = true) ∧
    ((render qShape renderEnv0 14 c6engine).2.2 = false ∧
      (20 : ℚ) - c6engine.lastFrameTime ≥ 1000 / 60 ∧
      (render qShape renderEnv0 20 (render qShape renderEnv0 14 c6engine).1).2.2
        = false) := by
  norm_num [render, c6engine, renderEnv0]

/-- C6 (amended: the throttle threshold is 1000/targetFPS minus 2 ms, and
the elapsed time is measured since the previous callback invocation,
since lastFrameTime advances on every invocation including skipped
ones): while enabled, every invocation schedules the next callback; the
analysis and drawing body is skipped exactly when less than
1000/60 minus 2 ms elapsed since the previous invocation, and a skipped
invocation leaves the levels, the beat state and the particle pool
unchanged, so throttling never stops the scheduler. -/
theorem c6_throttle_schedule (shape : BandKey → ℚ → K) (env : RenderEnv K)
    (ts : K) (s : Engine K) (hEn : s.isEnabled = true) :
    (render shape env ts s).2.1 = true ∧
    (ts - s.lastFrameTime < 1000 / 60 - 2 →
      (render shape env ts s).2.2 = false ∧
      (render shape env ts s).1.levels = s.levels ∧
      (render shape env ts s).1.beat = s.beat ∧
      (render shape env ts s).1.particles = s.particles) ∧
    (¬ ts - s.lastFrameTime < 1000 / 60 - 2 → (render shape env ts s).2.2 = true) := by
  by_cases h : ts - s.lastFrameTime < 1000 / 60 - 2
  · refine ⟨?_, fun _ => ⟨?_, ?_, ?_, ?_⟩, fun hc => absurd h hc⟩ <;>
      simp [render, hEn, h]
  · refine ⟨?_, fun hc => absurd hc h, fun _ => ?_⟩ <;> simp [render, hEn, h]

/-- Witness for the amended C6: at 15 ms elapsed the invocation schedules
the next callback and runs the body. -/
theorem c6_throttle_schedule_witness :
    (render qShape renderEnv0 15 c6engine).2.1 = true ∧
    (render qShape renderEnv0 15 c6engine).2.2 = true :=
  ⟨(c6_throttle_schedule qShape renderEnv0 15 c6engine rfl).1,
   (c6_throttle_schedule qShape renderEnv0 15 c6engine rfl).2.2
     (by norm_num [c6engine])⟩

/-- C7 counterexample: toggling off keeps the faded-in orb pool, but the
following toggle on replaces it with the initializeVisuals literal, so
drawing does not resume with the previously retained orb pool state. -/
theorem c7_orbs_counterexample :
    (toggleClick true 0 c7engine).orbs = c7engine.orbs ∧
    (toggleClick true 5 (toggleClick true 0 c7engine)).orbs ≠ c7engine.orbs ∧
    (toggleClick true 5 (toggleClick true 0 c7engine)).orbs = initOrbs := by
  norm_num [toggleClick, c7engine, disableLivingBackground, enableLivingBackground,
    initOrbs]

/-- C7 (amended: a subsequent enable resumes scheduling with the particle
pool still cleared, but with the orb pool re-initialized to its default
five-orb configuration rather than the retained state): toggling off
cancels the scheduled callback and empties the particle pool while
leaving the orb pool unchanged, a render invocation on the disabled
engine schedules nothing and runs no body, and toggling back on
schedules a callback with an empty particle pool and the
initializeVisuals orb pool. -/
theorem c7_disable_enable (s : Engine K) (cf : Bool) (now now2 : K)
    (shape : BandKey → ℚ → K) (env : RenderEnv K) (ts : K)
    (hEn : s.isEnabled = true) :
    (toggleClick cf now s).isEnabled = false ∧
    (toggleClick cf now s).animationId = false ∧
    (toggleClick cf now s).particles = [] ∧
    (toggleClick cf now s).orbs = s.orbs ∧
    (render shape env ts (toggleClick cf now s)).2.1 = false ∧
    (render shape env ts (toggleClick cf now s)).2.2 = false ∧
    (toggleClick true now2 (toggleClick cf now s)).isEnabled = true ∧
    (toggleClick true now2 (toggleClick cf now s)).animationId = true ∧
    (toggleClick true now2 (toggleClick cf now s)).particles = [] ∧
    (toggleClick true now2 (toggleClick cf now s)).orbs = initOrbs := by
  refine ⟨?_, ?_, ?_, ?_, ?_, ?_, ?_, ?_, ?_, ?_⟩ <;>
    simp [toggleClick, disableLivingBackground, enableLivingBackground, render, hEn]

/-- Witness for the amended C7 at the concrete mid-animation engine. -/
theorem c7_disable_enable_witness :
    (toggleClick true 0 c7engine).isEnabled = false ∧
    (toggleClick true 0 c7engine).animationId = false ∧
    (toggleClick true 0 c7engine).particles = [] ∧
    (toggleClick true 0 c7engine).orbs = c7engine.orbs ∧
    (render qShape renderEnv0 3 (toggleClick true 0 c7engine)).2.1 = false ∧
    (render qShape renderEnv0 3 (toggleClick true 0 c7engine)).2.2 = false ∧
    (toggleClick true 5 (toggleClick true 0 c7engine)).isEnabled = true ∧
    (toggleClick true 5 (toggleClick true 0 c7engine)).animationId = true ∧
    (toggleClick true 5 (toggleClick true 0 c7engine)).particles = [] ∧
    (toggleClick true 5 (toggleClick true 0 c7engine)).orbs = initOrbs :=
  c7_disable_enable c7engine true 0 5 qShape renderEnv0 3 rfl

/-- C9: with no audio source connected (analyser or frequencyData
absent), analyzeFrequencyBands returns the state unchanged — it is a
total function, so it cannot fail — and iterating it any number of ticks
from the initial all-zero state leaves every raw and smoothed band level
equal to its all-zero initial value. -/
theorem c9_silence_idle (n : ℕ) :
    (fun st => analyzeFrequencyBands realShape none st)^[n] (initLevels : Levels ℝ)
        = initLevels ∧
    (∀ b, (initLevels : Levels ℝ).raw b = 0 ∧ (initLevels : Levels ℝ).smoothed b = 0) :=
  ⟨Function.iterate_fixed rfl n, fun _ => ⟨rfl, rfl⟩⟩

/-- C10: the estimated BPM starts at 120, and every sequence of
detectBeat calls keeps it between 30 and 300, so the beat interval
60000 / bpm is positive and the beat-phase division never divides by
zero. -/
theorem c10_bpm_invariant :
    (initBeatState (K := K)).bpm = 120 ∧
    ∀ l : List (K × (BandKey → K)),
      30 ≤ (runDetect initBeatState l).bpm ∧
      (runDetect initBeatState l).bpm ≤ 300 ∧
      0 < (60000 : K) / (runDetect initBeatState l).bpm := by
  refine ⟨rfl, fun l => ?_⟩
  obtain ⟨g1, g2⟩ := runDetect_bpm_bounds (initBeatState (K := K)) l
    (by norm_num [initBeatState]) (by norm_num [initBeatState])
  exact ⟨g1, g2, div_pos (by norm_num) (lt_of_lt_of_le (by norm_num) g1)⟩

end LivingBg
